import Mathlib

/-!
Shallow embedding of the ECU tuning service (`src/server.js`): the job
lifecycle, problem-report sub-lifecycle, message thread, derived download
filename and socket room joins, together with theorems checking the
natural-language specification against this model.

Conventions: SQLite rows become Lean structures, `DATETIME` columns become
`Nat` timestamps, the `db.get`/`db.run` queries become `List.find?` /
`List.map` / append over the table lists, and every HTTP handler becomes a
pure function from the session, the database and the request parameters to
a response (plus the new database state and the list of Socket.io events it
emits).
-/

namespace ETS

/-- The processing option set stored (as JSON) in `jobs.options`
(`server.js` builds it from the request body in `/upload` and
`/jobs/:id/edit`). -/
structure Options where
  dpf_off : Bool
  egr_off : Bool
  adblue_off : Bool
  dtc_off : Bool
  dtc_codes : String
  immo_off : Bool
deriving DecidableEq, Repr

/-- A row of the `users` table (password hash omitted: credential storage
is out of scope for the core). -/
structure User where
  id : Nat
  email : String
  username : String
  role : String
deriving DecidableEq, Repr

/-- A row of the `jobs` table. -/
structure Job where
  id : Nat
  user_id : Nat
  original_filename : String
  stored_filename : String
  options : Options
  notes : String
  status : String
  processed_filename : Option String
  vehicle_make : Option String
  vehicle_model : Option String
  vehicle_year : Option Int
  ecu_controller : Option String
  client_message : Option String
  created_at : Nat
  updated_at : Nat
deriving DecidableEq, Repr

/-- A row of the `messages` table. -/
structure Message where
  id : Nat
  job_id : Nat
  user_id : Nat
  message : String
  created_at : Nat
deriving DecidableEq, Repr

/-- A row of the `problem_reports` table. -/
structure ProblemReport where
  id : Nat
  job_id : Nat
  reported_by : Nat
  description : String
  status : String
  created_at : Nat
  resolved_at : Option Nat
deriving DecidableEq, Repr

/-- The persistent state: the four tables plus the AUTOINCREMENT counters
for the tables the embedded handlers insert into. -/
structure DB where
  users : List User
  jobs : List Job
  messages : List Message
  reports : List ProblemReport
  nextJobId : Nat
  nextMessageId : Nat
  nextReportId : Nat
deriving DecidableEq, Repr

/-- An HTTP handler outcome: a redirect, an error status with its body
text, or a rendered/JSON payload. -/
inductive Resp (α : Type) where
  | redirect (loc : String)
  | err (code : Nat) (body : String)
  | ok (payload : α)
deriving DecidableEq, Repr

/-- A Socket.io event emitted by a handler, with the minimal payload the
model needs (`server.js` emits `newJob`/`problemReport`/`problemResolved`
to the `admin` room and `newMessage` to the `job_<id>` room). -/
inductive Event where
  | newJob (jobId userId : Nat) (username original_filename : String)
  | problemReport (reportId jobId reportedBy : Nat)
  | problemResolved (jobId : Nat)
  | newMessage (jobId messageId : Nat)
deriving DecidableEq, Repr

/-! ### Derived download filename (`GET /jobs/:id/download`) -/

/-- The suffix built in `GET /jobs/:id/download`: one parenthesized tag per
active boolean option, concatenated in source order DPF, EGR, AdBlue,
DTC (with the free-text code list spliced in), IMMO. -/
def optionSuffix (opts : Options) : String :=
  (if opts.dpf_off then "(DPF_OFF)" else "")
    ++ (if opts.egr_off then "(EGR_OFF)" else "")
    ++ (if opts.adblue_off then "(AdBlue_OFF)" else "")
    ++ (if opts.dtc_off then "(DTC_" ++ opts.dtc_codes ++ "_OFF)" else "")
    ++ (if opts.immo_off then "(IMMO_OFF)" else "")

/-- JavaScript `string.split('.')` on the character list: splits at every
dot, keeping empty segments (`''.split('.')` is `['']`). -/
def splitDot : List Char → List (List Char)
  | [] => [[]]
  | c :: cs =>
    if c = '.' then [] :: splitDot cs
    else
      match splitDot cs with
      | [] => [[c]]
      | p :: ps => (c :: p) :: ps

/-- JavaScript `parts.join('.')`. -/
def joinDot : List (List Char) → List Char
  | [] => []
  | [p] => p
  | p :: ps => p ++ '.' :: joinDot ps

/-- The derived download name: `server.js` splits the original filename on
`'.'`, pops the extension when there is one, and produces
`base_processed<suffix>.ext` (or `base_processed<suffix>` when the
extension is empty). -/
def buildDownloadFilename (original : String) (opts : Options) : String :=
  let parts := splitDot original.data
  let ext : String := if parts.length > 1 then ⟨parts.getLastD []⟩ else ""
  let base : String := if parts.length > 1 then ⟨joinDot parts.dropLast⟩
                       else ⟨joinDot parts⟩
  if ext ≠ "" then base ++ "_processed" ++ optionSuffix opts ++ "." ++ ext
  else base ++ "_processed" ++ optionSuffix opts

/-- All five boolean options off, empty code list. -/
def noOptions : Options := ⟨false, false, false, false, "", false⟩

/-! ### Queries shared by several handlers -/

/-- Query `db.get('SELECT * FROM jobs WHERE id = ? AND user_id = ?')`. -/
def findJobOwned (db : DB) (jid uid : Nat) : Option Job :=
  db.jobs.find? (fun j => j.id == jid && j.user_id == uid)

/-- Query `db.get('SELECT * FROM problem_reports WHERE job_id = ? AND status = "open"')`. -/
def openReportQuery (db : DB) (jid : Nat) : Option ProblemReport :=
  db.reports.find? (fun r => r.job_id == jid && r.status == "open")

/-- The job lookup both message endpoints share: admins query by id alone,
other users by id and ownership. -/
def jobQuery (u : User) (db : DB) (jid : Nat) : Option Job :=
  if u.role == "admin" then db.jobs.find? (fun j => j.id == jid)
  else db.jobs.find? (fun j => j.id == jid && j.user_id == u.id)

/-- The `requireAdmin` middleware predicate: a session user with role
`admin` must be present. -/
def requireAdminCheck (sess : Option User) : Bool :=
  match sess with
  | none => false
  | some u => u.role == "admin"

/-- JavaScript `string.trim()`: strip whitespace from both ends. -/
def jsTrim (s : String) : String :=
  ⟨((s.data.dropWhile Char.isWhitespace).reverse.dropWhile Char.isWhitespace).reverse⟩

/-! ### Handlers -/

/-- The mutable fields of `POST /jobs/:id/edit`'s request body. -/
structure EditBody where
  options : Options
  notes : String
  vehicle_make : String
  vehicle_model : String
  vehicle_year : Option Int
  ecu_controller : Option String
deriving DecidableEq, Repr

/-- The per-row effect of the edit `UPDATE ... WHERE id = ? AND user_id = ?`. -/
def editRow (jid uid : Nat) (body : EditBody) (now : Nat) (j : Job) : Job :=
  if j.id == jid && j.user_id == uid then
    { j with
      options := body.options
      notes := body.notes
      vehicle_make := some body.vehicle_make
      vehicle_model := some body.vehicle_model
      vehicle_year := body.vehicle_year
      ecu_controller := body.ecu_controller
      updated_at := now }
  else j

/-- The per-row effect of the complete `UPDATE ... WHERE id = ?` (note: no
status condition). -/
def completeRow (jid : Nat) (procFile : String) (now : Nat) (j : Job) : Job :=
  if j.id == jid then
    { j with
      status := "completed"
      processed_filename := some procFile
      updated_at := now }
  else j

/-- The per-row effect of the cancel `UPDATE ... WHERE id = ?` (note: no
status condition). -/
def cancelRow (jid now : Nat) (j : Job) : Job :=
  if j.id == jid then { j with status := "cancelled", updated_at := now } else j

/-- The per-row effect of the close-problem
`UPDATE ... WHERE job_id = ? AND status = 'open'`. -/
def resolveRow (jid now : Nat) (r : ProblemReport) : ProblemReport :=
  if r.job_id == jid && r.status == "open" then
    { r with status := "resolved", resolved_at := some now }
  else r

/-- Handler `POST /upload`: insert a pending job and emit `newJob` to the admin
room. -/
def uploadJob (sess : Option User) (db : DB) (file : Option (String × String))
    (opts : Options) (notes vehicle_make vehicle_model : String)
    (vehicle_year : Option Int) (ecu_controller : Option String) (now : Nat) :
    Resp Unit × DB × List Event :=
  match sess with
  | none => (.redirect "/login", db, [])
  | some u =>
    match file with
    | none => (.err 400 "File is required", db, [])
    | some (orig, stored) =>
      let j : Job :=
        { id := db.nextJobId
          user_id := u.id
          original_filename := orig
          stored_filename := stored
          options := opts
          notes := notes
          status := "pending"
          processed_filename := none
          vehicle_make := some vehicle_make
          vehicle_model := some vehicle_model
          vehicle_year := vehicle_year
          ecu_controller := ecu_controller
          client_message := none
          created_at := now
          updated_at := now }
      (.redirect "/jobs/history",
       { db with jobs := db.jobs ++ [j], nextJobId := db.nextJobId + 1 },
       [.newJob j.id u.id u.username orig])

/-- Handler `POST /jobs/:id/edit`: fetch the owned job, refuse unless it is
pending, otherwise update options/notes/vehicle fields and bump
`updated_at`. -/
def editJob (sess : Option User) (db : DB) (jid : Nat) (body : EditBody) (now : Nat) :
    Resp Unit × DB :=
  match sess with
  | none => (.redirect "/login", db)
  | some u =>
    match findJobOwned db jid u.id with
    | none => (.err 404 "Job not found", db)
    | some existingJob =>
      if existingJob.status ≠ "pending" then
        (.err 403 "Można edytować tylko oczekujące zadania", db)
      else
        (.redirect "/jobs/history",
         { db with jobs := db.jobs.map (editRow jid u.id body now) })

/-- Handler `GET /jobs/:id`: the owned-job detail, with the left-joined
`hasOpenProblem` flag; missing and not-owned both end in the same
`404 Job not found` branch. -/
def getJobDetail (sess : Option User) (db : DB) (jid : Nat) : Resp (Job × Bool) :=
  match sess with
  | none => .redirect "/login"
  | some u =>
    match findJobOwned db jid u.id with
    | none => .err 404 "Job not found"
    | some job => .ok (job, (openReportQuery db jid).isSome)

/-- Handler `POST /jobs/:id/report_problem`: validate the description, require an
owned completed job, skip insertion when a report is already open
(redirecting back to the job), otherwise insert an open report and emit
`problemReport` to the admin room. -/
def reportProblem (sess : Option User) (db : DB) (jid : Nat) (description : String)
    (now : Nat) : Resp Unit × DB × List Event :=
  match sess with
  | none => (.redirect "/login", db, [])
  | some u =>
    if jsTrim description = "" then (.err 400 "Opis problemu jest wymagany", db, [])
    else
      match db.jobs.find? (fun j => j.id == jid && j.user_id == u.id
          && j.status == "completed") with
      | none => (.err 403 "Nie możesz zgłosić problemu z tym zadaniem", db, [])
      | some _job =>
        match openReportQuery db jid with
        | some _existing => (.redirect ("/jobs/" ++ toString jid), db, [])
        | none =>
          let r : ProblemReport :=
            { id := db.nextReportId
              job_id := jid
              reported_by := u.id
              description := jsTrim description
              status := "open"
              created_at := now
              resolved_at := none }
          (.redirect ("/jobs/" ++ toString jid),
           { db with reports := db.reports ++ [r], nextReportId := db.nextReportId + 1 },
           [.problemReport r.id jid u.id])

/-- Handler `POST /admin/jobs/:id/complete`: admin only; requires the uploaded
processed file; then runs an unconditional
`UPDATE jobs SET status='completed', processed_filename=?, updated_at=...
WHERE id = ?` (no check of the current status). -/
def adminComplete (sess : Option User) (db : DB) (jid : Nat)
    (uploadedFile : Option String) (now : Nat) : Resp Unit × DB :=
  if !(requireAdminCheck sess) then (.err 403 "Forbidden", db)
  else
    match uploadedFile with
    | none => (.err 400 "Processed file is required", db)
    | some f =>
      (.redirect "/admin/jobs",
       { db with jobs := db.jobs.map (completeRow jid f now) })

/-- Handler `POST /admin/jobs/:id/cancel`: admin only; unconditional
`UPDATE jobs SET status='cancelled', updated_at=... WHERE id = ?`. -/
def adminCancel (sess : Option User) (db : DB) (jid : Nat) (now : Nat) :
    Resp Unit × DB :=
  if !(requireAdminCheck sess) then (.err 403 "Forbidden", db)
  else
    (.redirect "/admin/jobs",
     { db with jobs := db.jobs.map (cancelRow jid now) })

/-- Handler `POST /admin/jobs/:id/close_problem`: admin only; runs
`UPDATE problem_reports SET status='resolved', resolved_at=... WHERE
job_id = ? AND status = 'open'`, then always emits `problemResolved` and
redirects — even when no row matched. -/
def closeProblem (sess : Option User) (db : DB) (jid : Nat) (now : Nat) :
    Resp Unit × DB × List Event :=
  if !(requireAdminCheck sess) then (.err 403 "Forbidden", db, [])
  else
    (.redirect ("/admin/jobs/" ++ toString jid),
     { db with reports := db.reports.map (resolveRow jid now) },
     [.problemResolved jid])

/-! ### Message thread -/

/-- A row of the message queries' `JOIN users` result: the message plus
the author's denormalized display name and role. -/
structure MessageView where
  id : Nat
  job_id : Nat
  user_id : Nat
  message : String
  created_at : Nat
  user_name : String
  user_role : String
deriving DecidableEq, Repr

/-- The `JOIN users ON messages.user_id = users.id` step (user ids are a
primary key, so the first match is the row). -/
def joinUser (db : DB) (m : Message) : Option MessageView :=
  (db.users.find? (fun usr => usr.id == m.user_id)).map
    (fun usr => ⟨m.id, m.job_id, m.user_id, m.message, m.created_at,
      usr.username, usr.role⟩)

/-- Comparison used for `ORDER BY messages.created_at ASC`. -/
def msgViewLE (a b : MessageView) : Prop := a.created_at ≤ b.created_at

instance : DecidableRel msgViewLE := fun a b => Nat.decLe a.created_at b.created_at

instance : IsTotal MessageView msgViewLE :=
  ⟨fun a b => Nat.le_total a.created_at b.created_at⟩

instance : IsTrans MessageView msgViewLE :=
  ⟨fun _ _ _ hab hbc => Nat.le_trans hab hbc⟩

/-- Strip a joined view back to its `messages` row. -/
def stripView (v : MessageView) : Message :=
  ⟨v.id, v.job_id, v.user_id, v.message, v.created_at⟩

/-- Handler `GET /api/jobs/:id/messages`: the shared job lookup, then the job's
messages joined with their authors in ascending `created_at` order. -/
def listMessages (sess : Option User) (db : DB) (jid : Nat) :
    Resp (List MessageView) :=
  match sess with
  | none => .redirect "/login"
  | some u =>
    match jobQuery u db jid with
    | none => .err 403 "Forbidden"
    | some _ =>
      .ok (List.insertionSort msgViewLE
        ((db.messages.filter (fun m => m.job_id == jid)).filterMap (joinUser db)))

/-- Handler `POST /api/jobs/:id/messages`: validate the body, run the shared job
lookup, insert the message, re-fetch it joined with its author, emit
`newMessage` to the job room and echo the row. -/
def postMessage (sess : Option User) (db : DB) (jid : Nat) (body : String) (now : Nat) :
    Resp MessageView × DB × List Event :=
  match sess with
  | none => (.redirect "/login", db, [])
  | some u =>
    if jsTrim body = "" then (.err 400 "Message is required", db, [])
    else
      match jobQuery u db jid with
      | none => (.err 403 "Forbidden", db, [])
      | some _ =>
        let m : Message :=
          { id := db.nextMessageId
            job_id := jid
            user_id := u.id
            message := jsTrim body
            created_at := now }
        let db' : DB :=
          { db with
            messages := db.messages ++ [m]
            nextMessageId := db.nextMessageId + 1 }
        match joinUser db' m with
        | none => (.err 500 "Database error", db', [])
        | some v => (.ok v, db', [.newMessage jid m.id])

/-! ### Socket.io connection handler -/

/-- A connected Socket.io session: its (possibly absent) authenticated
user and the rooms it has joined. -/
structure Socket where
  sess : Option User
  rooms : List String
deriving DecidableEq, Repr

/-- The `socket.on('joinJob', ...)` handler: `socket.join('job_' + jobId)`
with no authentication or eligibility check. -/
def joinJobRoom (s : Socket) (jobId : String) : Socket :=
  { s with rooms := s.rooms ++ ["job_" ++ jobId] }

/-- The `socket.on('joinAdmin', ...)` handler: `socket.join('admin')`,
likewise unchecked. -/
def joinAdminRoom (s : Socket) : Socket :=
  { s with rooms := s.rooms ++ ["admin"] }

theorem length_tag_dpf : ("(DPF_OFF)" : String).length = 9 := rfl

theorem length_tag_egr : ("(EGR_OFF)" : String).length = 9 := rfl

theorem length_tag_adblue : ("(AdBlue_OFF)" : String).length = 12 := rfl

theorem length_tag_dtc_open : ("(DTC_" : String).length = 5 := rfl

theorem length_tag_dtc_close : ("_OFF)" : String).length = 5 := rfl

theorem length_tag_immo : ("(IMMO_OFF)" : String).length = 10 := rfl

/-- Length of the option suffix, option by option. -/
theorem optionSuffix_length (o : Options) :
    (optionSuffix o).length =
      (if o.dpf_off then 9 else 0) + (if o.egr_off then 9 else 0)
        + (if o.adblue_off then 12 else 0)
        + (if o.dtc_off then 10 + o.dtc_codes.length else 0)
        + (if o.immo_off then 10 else 0) := by
  unfold optionSuffix
  simp only [String.length_append]
  rcases o with ⟨d, e, a, t, c, i⟩
  cases d <;> cases e <;> cases a <;> cases t <;> cases i <;>
    simp [length_tag_dpf, length_tag_egr, length_tag_adblue,
      length_tag_dtc_open, length_tag_dtc_close, length_tag_immo,
      String.length_append] <;> omega

/-- The download filename splits into a part depending only on the original
name plus the option suffix (lengthwise). -/
theorem buildDownloadFilename_length (original : String) (o : Options) :
    (buildDownloadFilename original o).length =
      (buildDownloadFilename original noOptions).length
        + (optionSuffix o).length := by
  unfold buildDownloadFilename
  have hno : optionSuffix noOptions = "" := rfl
  simp only [hno]
  split <;> split <;> simp [String.length_append] <;> omega

/-- Two option sets whose suffixes have different lengths derive different
download names for the same original filename. -/
theorem build_ne_of_suffix_len_ne {original : String} {o1 o2 : Options}
    (h : (optionSuffix o1).length ≠ (optionSuffix o2).length) :
    buildDownloadFilename original o1 ≠ buildDownloadFilename original o2 := by
  intro he
  have hl := congrArg String.length he
  have h1 := buildDownloadFilename_length original o1
  have h2 := buildDownloadFilename_length original o2
  omega

/-- C4. The derived download filename is a pure deterministic function of
the original name and the option set: equal inputs give equal outputs;
each active boolean option contributes its parenthesized tag in the fixed
source order DPF, EGR, AdBlue, DTC-with-codes, IMMO before the original
extension and inactive options contribute none (witnessed on concrete
inputs); and toggling any single boolean option changes the result. -/
theorem downloadFilename_pure_canonical :
    (∀ original o, buildDownloadFilename original o = buildDownloadFilename original o)
    ∧ (∀ original o,
        buildDownloadFilename original { o with dpf_off := !o.dpf_off }
            ≠ buildDownloadFilename original o
        ∧ buildDownloadFilename original { o with egr_off := !o.egr_off }
            ≠ buildDownloadFilename original o
        ∧ buildDownloadFilename original { o with adblue_off := !o.adblue_off }
            ≠ buildDownloadFilename original o
        ∧ buildDownloadFilename original { o with dtc_off := !o.dtc_off }
            ≠ buildDownloadFilename original o
        ∧ buildDownloadFilename original { o with immo_off := !o.immo_off }
            ≠ buildDownloadFilename original o)
    ∧ buildDownloadFilename "map.bin" ⟨true, true, true, true, "P0420", true⟩
        = "map_processed(DPF_OFF)(EGR_OFF)(AdBlue_OFF)(DTC_P0420_OFF)(IMMO_OFF).bin"
    ∧ buildDownloadFilename "map.bin" noOptions = "map_processed.bin"
    ∧ buildDownloadFilename "map.bin" ⟨true, false, false, false, "", false⟩
        = "map_processed(DPF_OFF).bin"
    ∧ buildDownloadFilename "mapfile" ⟨false, true, false, false, "", false⟩
        = "mapfile_processed(EGR_OFF)" := by
  refine ⟨fun _ _ => rfl, fun original o => ⟨?_, ?_, ?_, ?_, ?_⟩, by decide, by decide,
    by decide, by decide⟩ <;>
  · apply build_ne_of_suffix_len_ne
    rw [optionSuffix_length, optionSuffix_length]
    rcases o with ⟨d, e, a, t, c, i⟩
    cases d <;> cases e <;> cases a <;> cases t <;> cases i <;> simp <;> omega

/-! ### Sample data for concrete evaluations -/

/-- The default operator account (`role = 'admin'`). -/
def adminUser : User := ⟨1, "admin@example.com", "admin", "admin"⟩

/-- A requester account (`role = 'client'`). -/
def clientUser : User := ⟨2, "client@example.com", "client", "client"⟩

/-- A completed job owned by `clientUser`. -/
def jobCompleted : Job :=
  ⟨1, 2, "map.bin", "s1.bin", noOptions, "note1", "completed", some "p1.bin",
   some "VW", some "Golf", some 2015, some "EDC17", none, 10, 11⟩

/-- A cancelled job owned by `clientUser`. -/
def jobCancelled : Job :=
  ⟨2, 2, "eco.bin", "s2.bin", noOptions, "note2", "cancelled", none,
   none, none, none, none, none, 10, 12⟩

/-- A pending job owned by `clientUser`. -/
def jobPending : Job :=
  ⟨3, 2, "stage1.bin", "s3.bin", noOptions, "note3", "pending", none,
   none, none, none, none, none, 10, 10⟩

/-- A job owned by a third user (id 5), for the not-found
indistinguishability check. -/
def jobOther : Job :=
  ⟨7, 5, "x.bin", "s7.bin", noOptions, "", "pending", none,
   none, none, none, none, none, 10, 10⟩

/-- A base database with the three client jobs and no reports. -/
def db0 : DB := ⟨[adminUser, clientUser], [jobCompleted, jobCancelled, jobPending], [], [], 8, 1, 1⟩

/-- An open problem report against `jobCompleted`. -/
def openReport1 : ProblemReport := ⟨1, 1, 2, "does not start", "open", 15, none⟩

/-- A resolved problem report against `jobCompleted`. -/
def resolvedReport1 : ProblemReport := ⟨1, 1, 2, "does not start", "resolved", 15, some 16⟩

/-- Database `db0` plus an open report on job 1. -/
def dbOpen : DB := ⟨[adminUser, clientUser], [jobCompleted, jobCancelled, jobPending], [], [openReport1], 8, 1, 2⟩

/-- Database `db0` plus a resolved report on job 1 (so no open report exists). -/
def dbResolved : DB := ⟨[adminUser, clientUser], [jobCompleted, jobCancelled, jobPending], [], [resolvedReport1], 8, 1, 2⟩

/-- A sample edit request body. -/
def sampleEdit : EditBody := ⟨⟨true, false, false, false, "", false⟩, "new notes", "Audi", "A4", some 2018, some "MED17"⟩

/-! ### Claim theorems -/

/-- C1. The claim says an operator complete/cancel on a job already in a
terminal state fails with `invalid_transition` and leaves the status
unchanged. The code runs an unconditional `UPDATE ... WHERE id = ?`: on
the completed job 1 a cancel succeeds (status becomes `cancelled`) and on
the cancelled job 2 a complete succeeds (status becomes `completed`), both
answering with the success redirect. -/
theorem terminal_transitions_not_blocked :
    (adminCancel (some adminUser) db0 1 20).1 = Resp.redirect "/admin/jobs"
    ∧ ((adminCancel (some adminUser) db0 1 20).2.jobs.find?
        (fun j => j.id == 1)).map Job.status = some "cancelled"
    ∧ (adminComplete (some adminUser) db0 2 (some "done.bin") 20).1
        = Resp.redirect "/admin/jobs"
    ∧ ((adminComplete (some adminUser) db0 2 (some "done.bin") 20).2.jobs.find?
        (fun j => j.id == 2)).map Job.status = some "completed" := by
  decide

/-- C2. An edit of a non-pending owned job fails with the
`immutable_state` response (the 403 edit-refusal branch) and leaves the
whole database — in particular every field of the job — unchanged. -/
theorem edit_nonpending_fails_unchanged (u : User) (db : DB) (jid : Nat)
    (body : EditBody) (now : Nat) (j : Job)
    (hfind : findJobOwned db jid u.id = some j)
    (hstatus : j.status ≠ "pending") :
    editJob (some u) db jid body now
      = (Resp.err 403 "Można edytować tylko oczekujące zadania", db) := by
  simp [editJob, hfind, hstatus]

/-- Witness for C2 on the completed job 1 owned by the client. -/
theorem edit_nonpending_fails_unchanged_witness :
    findJobOwned db0 1 clientUser.id = some jobCompleted
    ∧ jobCompleted.status ≠ "pending"
    ∧ editJob (some clientUser) db0 1 sampleEdit 30
        = (Resp.err 403 "Można edytować tylko oczekujące zadania", db0) :=
  ⟨by decide, by decide,
    edit_nonpending_fails_unchanged clientUser db0 1 sampleEdit 30 jobCompleted
      (by decide) (by decide)⟩

/-- C3. The claim says resolving with no open report is a no-op returning
`no_open_report` and emitting nothing. The code leaves the stored reports
unchanged but answers with the success redirect and still emits
`problemResolved`: on `dbResolved` (only a resolved report on job 1) the
operator close request returns the redirect, the identical database, and
the event. -/
theorem close_problem_without_open_report_emits :
    closeProblem (some adminUser) dbResolved 1 30
      = (Resp.redirect "/admin/jobs/1", dbResolved, [Event.problemResolved 1])
    ∧ closeProblem (some adminUser) db0 3 30
      = (Resp.redirect "/admin/jobs/3", db0, [Event.problemResolved 3]) := by
  decide

/-- C7. The claim says the join handler admits only authenticated,
eligible sessions. The code joins unconditionally: an unauthenticated
socket joins `job_1`, a client socket joins the room of job 999 it does
not own, and any socket joins the operator room. -/
theorem join_handlers_unchecked :
    (joinJobRoom ⟨none, []⟩ "1").rooms = ["job_1"]
    ∧ (joinJobRoom ⟨some clientUser, []⟩ "999").rooms = ["job_999"]
    ∧ (joinAdminRoom ⟨some clientUser, []⟩).rooms = ["admin"] := by
  decide

/-! ### At-most-one-open-report invariant (C5) -/

/-- No two of these reports are simultaneously open for the same job. -/
def noTwoOpen (r1 r2 : ProblemReport) : Prop :=
  ¬(r1.job_id = r2.job_id ∧ r1.status = "open" ∧ r2.status = "open")

instance : DecidableRel noTwoOpen := fun a b => by unfold noTwoOpen; infer_instance

/-- The invariant: at most one problem report with status `open` exists
per job. -/
def atMostOneOpen (db : DB) : Prop := db.reports.Pairwise noTwoOpen

instance (db : DB) : Decidable (atMostOneOpen db) := by
  unfold atMostOneOpen; infer_instance

/-- Resolving rows never creates a new open pair. -/
theorem resolveRow_preserves (jid now : Nat) (a b : ProblemReport)
    (h : noTwoOpen a b) :
    noTwoOpen (resolveRow jid now a) (resolveRow jid now b) := by
  unfold resolveRow
  split <;> split <;> simp_all [noTwoOpen]

/-- Handler `uploadJob` does not touch the reports table. -/
theorem uploadJob_reports (sess : Option User) (db : DB)
    (file : Option (String × String)) (opts : Options)
    (notes vmk vmd : String) (yr : Option Int) (ecu : Option String) (now : Nat) :
    (uploadJob sess db file opts notes vmk vmd yr ecu now).2.1.reports = db.reports := by
  unfold uploadJob
  rcases sess with _ | u
  · rfl
  · rcases file with _ | ⟨orig, stored⟩ <;> rfl

/-- Handler `editJob` does not touch the reports table. -/
theorem editJob_reports (sess : Option User) (db : DB) (jid : Nat)
    (body : EditBody) (now : Nat) :
    (editJob sess db jid body now).2.reports = db.reports := by
  unfold editJob
  rcases sess with _ | u
  · rfl
  · rcases h : findJobOwned db jid u.id with _ | j
    · simp only [h]
    · simp only [h]
      split <;> rfl

/-- Handler `adminComplete` does not touch the reports table. -/
theorem adminComplete_reports (sess : Option User) (db : DB) (jid : Nat)
    (f : Option String) (now : Nat) :
    (adminComplete sess db jid f now).2.reports = db.reports := by
  unfold adminComplete
  split
  · rfl
  · rcases f with _ | pf <;> rfl

/-- Handler `adminCancel` does not touch the reports table. -/
theorem adminCancel_reports (sess : Option User) (db : DB) (jid now : Nat) :
    (adminCancel sess db jid now).2.reports = db.reports := by
  unfold adminCancel
  split <;> rfl

/-- Handler `postMessage` does not touch the reports table. -/
theorem postMessage_reports (sess : Option User) (db : DB) (jid : Nat)
    (body : String) (now : Nat) :
    (postMessage sess db jid body now).2.1.reports = db.reports := by
  unfold postMessage
  rcases sess with _ | u
  · rfl
  · dsimp only
    split
    · rfl
    · rcases h : jobQuery u db jid with _ | j
      · simp only [h]
      · simp only [h]
        split <;> rfl

/-- Handler `closeProblem` preserves the invariant. -/
theorem closeProblem_preserves (sess : Option User) (db : DB) (jid now : Nat)
    (h : atMostOneOpen db) : atMostOneOpen (closeProblem sess db jid now).2.1 := by
  unfold closeProblem
  split
  · exact h
  · exact List.Pairwise.map _ (fun a b hab => resolveRow_preserves jid now a b hab) h

/-- Handler `reportProblem` preserves the invariant. -/
theorem reportProblem_preserves (sess : Option User) (db : DB) (jid : Nat)
    (descr : String) (now : Nat) (h : atMostOneOpen db) :
    atMostOneOpen (reportProblem sess db jid descr now).2.1 := by
  unfold reportProblem
  rcases sess with _ | u
  · exact h
  · dsimp only
    split
    · exact h
    · rcases hj : db.jobs.find? (fun j => j.id == jid && j.user_id == u.id
          && j.status == "completed") with _ | j
      · simp only [hj]; exact h
      · simp only [hj]
        rcases hr : openReportQuery db jid with _ | r
        · simp only [hr]
          unfold atMostOneOpen at h ⊢
          dsimp only
          rw [List.pairwise_append]
          refine ⟨h, List.pairwise_singleton _ _, ?_⟩
          intro a ha b hb
          simp only [List.mem_singleton] at hb
          subst hb
          unfold noTwoOpen
          rintro ⟨hjid, haopen, -⟩
          unfold openReportQuery at hr
          have hnot := List.find?_eq_none.mp hr a ha
          simp only [hjid] at hnot
          simp [haopen] at hnot
        · simp only [hr]; exact h

/-- Handler `reportProblem` is a no-op on the database when a report is already
open for the job. -/
theorem reportProblem_noop_when_open (sess : Option User) (db : DB) (jid : Nat)
    (descr : String) (now : Nat)
    (hex : ∃ r ∈ db.reports, r.job_id = jid ∧ r.status = "open") :
    (reportProblem sess db jid descr now).2.1 = db := by
  obtain ⟨r, hrmem, hrjid, hrst⟩ := hex
  have hsome : (openReportQuery db jid).isSome := by
    unfold openReportQuery
    rw [List.find?_isSome]
    exact ⟨r, hrmem, by simp [hrjid, hrst]⟩
  obtain ⟨r', hr'⟩ := Option.isSome_iff_exists.mp hsome
  unfold reportProblem
  rcases sess with _ | u
  · rfl
  · dsimp only
    split
    · rfl
    · rcases hj : db.jobs.find? (fun j => j.id == jid && j.user_id == u.id
          && j.status == "completed") with _ | j
      · simp only [hj]
      · simp only [hj, hr']

/-- C5. At most one open problem report exists per job: assuming the
invariant, every handler — filing, resolving, creating, editing,
completing, cancelling, posting a message — preserves it, and filing
while a report is already open inserts no new row (the database is
untouched; the handler redirects the caller back to the job). -/
theorem open_report_uniqueness_preserved (db : DB) (sess : Option User)
    (jid : Nat) (descr : String) (now : Nat) (file : Option (String × String))
    (opts : Options) (notes vmk vmd : String) (yr : Option Int)
    (ecu : Option String) (body : EditBody) (pf : Option String)
    (msgBody : String) (h : atMostOneOpen db) :
    atMostOneOpen (reportProblem sess db jid descr now).2.1
    ∧ atMostOneOpen (closeProblem sess db jid now).2.1
    ∧ atMostOneOpen (uploadJob sess db file opts notes vmk vmd yr ecu now).2.1
    ∧ atMostOneOpen (editJob sess db jid body now).2
    ∧ atMostOneOpen (adminComplete sess db jid pf now).2
    ∧ atMostOneOpen (adminCancel sess db jid now).2
    ∧ atMostOneOpen (postMessage sess db jid msgBody now).2.1
    ∧ ((∃ r ∈ db.reports, r.job_id = jid ∧ r.status = "open") →
        (reportProblem sess db jid descr now).2.1 = db) := by
  refine ⟨reportProblem_preserves sess db jid descr now h,
    closeProblem_preserves sess db jid now h, ?_, ?_, ?_, ?_, ?_,
    reportProblem_noop_when_open sess db jid descr now⟩
  · unfold atMostOneOpen
    rw [uploadJob_reports]
    exact h
  · unfold atMostOneOpen
    rw [editJob_reports]
    exact h
  · unfold atMostOneOpen
    rw [adminComplete_reports]
    exact h
  · unfold atMostOneOpen
    rw [adminCancel_reports]
    exact h
  · unfold atMostOneOpen
    rw [postMessage_reports]
    exact h

/-- Witness for C5 on `dbOpen` (one open report on job 1). -/
theorem open_report_uniqueness_preserved_witness :
    atMostOneOpen dbOpen
    ∧ (atMostOneOpen (reportProblem (some clientUser) dbOpen 1 "again" 40).2.1
      ∧ atMostOneOpen (closeProblem (some clientUser) dbOpen 1 40).2.1
      ∧ atMostOneOpen (uploadJob (some clientUser) dbOpen (some ("a.bin", "b.bin"))
          noOptions "" "" "" none none 40).2.1
      ∧ atMostOneOpen (editJob (some clientUser) dbOpen 1 sampleEdit 40).2
      ∧ atMostOneOpen (adminComplete (some clientUser) dbOpen 1 (some "p.bin") 40).2
      ∧ atMostOneOpen (adminCancel (some clientUser) dbOpen 1 40).2
      ∧ atMostOneOpen (postMessage (some clientUser) dbOpen 1 "hello" 40).2.1
      ∧ ((∃ r ∈ dbOpen.reports, r.job_id = 1 ∧ r.status = "open") →
          (reportProblem (some clientUser) dbOpen 1 "again" 40).2.1 = dbOpen)) :=
  ⟨by decide,
    open_report_uniqueness_preserved dbOpen (some clientUser) 1 "again" 40
      (some ("a.bin", "b.bin")) noOptions "" "" "" none none sampleEdit
      (some "p.bin") "hello" (by decide)⟩

/-- C6. Filing a problem report requires an owned completed job and no
open report: when the owned job is not completed the handler denies (the
`not_completed` 403 branch) and persists nothing; when the job is
completed but a report is already open the handler inserts nothing and
routes the caller back to the job page, emitting no event. -/
theorem report_problem_preconditions (db : DB) (u : User) (jid : Nat)
    (descr : String) (now : Nat) (j : Job)
    (htrim : jsTrim descr ≠ "")
    (hnodup : (db.jobs.map Job.id).Nodup)
    (hjmem : j ∈ db.jobs) (hjid : j.id = jid) (hjuid : j.user_id = u.id) :
    (j.status ≠ "completed" →
      reportProblem (some u) db jid descr now
        = (Resp.err 403 "Nie możesz zgłosić problemu z tym zadaniem", db, []))
    ∧ (j.status = "completed" →
      (∃ r ∈ db.reports, r.job_id = jid ∧ r.status = "open") →
      reportProblem (some u) db jid descr now
        = (Resp.redirect ("/jobs/" ++ toString jid), db, [])) := by
  constructor
  · intro hst
    have hnone : db.jobs.find? (fun x => x.id == jid && x.user_id == u.id
        && x.status == "completed") = none := by
      rw [List.find?_eq_none]
      intro x hx hpx
      simp only [Bool.and_eq_true, beq_iff_eq] at hpx
      have hxid : x.id = jid := by tauto
      have hxst : x.status = "completed" := by tauto
      have hxj : x = j :=
        List.inj_on_of_nodup_map hnodup hx hjmem (by rw [hxid, hjid])
      rw [hxj] at hxst
      exact hst hxst
    unfold reportProblem
    dsimp only
    rw [if_neg htrim]
    simp only [hnone]
  · intro hst hex
    have hsome : (db.jobs.find? (fun x => x.id == jid && x.user_id == u.id
        && x.status == "completed")).isSome := by
      rw [List.find?_isSome]
      exact ⟨j, hjmem, by simp [hjid, hjuid, hst]⟩
    obtain ⟨j', hj'⟩ := Option.isSome_iff_exists.mp hsome
    obtain ⟨r, hrmem, hrjid, hrst⟩ := hex
    have hrsome : (openReportQuery db jid).isSome := by
      unfold openReportQuery
      rw [List.find?_isSome]
      exact ⟨r, hrmem, by simp [hrjid, hrst]⟩
    obtain ⟨r', hr'⟩ := Option.isSome_iff_exists.mp hrsome
    unfold reportProblem
    dsimp only
    rw [if_neg htrim]
    simp only [hj', hr']

/-- Witness for C6 on the completed job 1 of `dbOpen` (open report
present). -/
theorem report_problem_preconditions_witness :
    jsTrim "it broke" ≠ ""
    ∧ (dbOpen.jobs.map Job.id).Nodup
    ∧ jobCompleted ∈ dbOpen.jobs
    ∧ jobCompleted.id = 1
    ∧ jobCompleted.user_id = clientUser.id
    ∧ ((jobCompleted.status ≠ "completed" →
        reportProblem (some clientUser) dbOpen 1 "it broke" 40
          = (Resp.err 403 "Nie możesz zgłosić problemu z tym zadaniem", dbOpen, []))
      ∧ (jobCompleted.status = "completed" →
        (∃ r ∈ dbOpen.reports, r.job_id = 1 ∧ r.status = "open") →
        reportProblem (some clientUser) dbOpen 1 "it broke" 40
          = (Resp.redirect ("/jobs/" ++ toString 1), dbOpen, []))) :=
  ⟨by decide, by decide, by decide, by decide, by decide,
    report_problem_preconditions dbOpen clientUser 1 "it broke" 40 jobCompleted
      (by decide) (by decide) (by decide) (by decide) (by decide)⟩

/-- A second base database containing a job owned by a third user, for the
indistinguishability check. -/
def dbWithOther : DB := ⟨[adminUser, clientUser], [jobCompleted, jobOther], [], [], 8, 1, 1⟩

/-- C8. A requester reading the detail of a missing job and of a job
owned by someone else gets the exact same `404 Job not found` response:
the two cases are indistinguishable. -/
theorem job_detail_not_found_indistinguishable (db1 db2 : DB) (u1 u2 : User)
    (jid1 jid2 : Nat)
    (h1 : ∀ j ∈ db1.jobs, j.id ≠ jid1)
    (h2 : ∀ j ∈ db2.jobs, j.id = jid2 → j.user_id ≠ u2.id) :
    getJobDetail (some u1) db1 jid1 = Resp.err 404 "Job not found"
    ∧ getJobDetail (some u2) db2 jid2 = getJobDetail (some u1) db1 jid1 := by
  have f1 : findJobOwned db1 jid1 u1.id = none := by
    unfold findJobOwned
    rw [List.find?_eq_none]
    intro x hx hpx
    simp only [Bool.and_eq_true, beq_iff_eq] at hpx
    exact h1 x hx (by tauto)
  have f2 : findJobOwned db2 jid2 u2.id = none := by
    unfold findJobOwned
    rw [List.find?_eq_none]
    intro x hx hpx
    simp only [Bool.and_eq_true, beq_iff_eq] at hpx
    exact h2 x hx (by tauto) (by tauto)
  constructor
  · unfold getJobDetail
    dsimp only
    simp only [f1]
  · unfold getJobDetail
    dsimp only
    simp only [f1, f2]

/-- Witness for C8: job 99 does not exist in `db0`; job 7 in
`dbWithOther` belongs to user 5, not to the client. -/
theorem job_detail_not_found_indistinguishable_witness :
    (∀ j ∈ db0.jobs, j.id ≠ 99)
    ∧ (∀ j ∈ dbWithOther.jobs, j.id = 7 → j.user_id ≠ clientUser.id)
    ∧ (getJobDetail (some clientUser) db0 99 = Resp.err 404 "Job not found"
      ∧ getJobDetail (some clientUser) dbWithOther 7
          = getJobDetail (some clientUser) db0 99) :=
  ⟨by decide, by decide,
    job_detail_not_found_indistinguishable db0 dbWithOther clientUser clientUser
      99 7 (by decide) (by decide)⟩

/-- C10. A successful operator cancel answers with the redirect, leaves
users, messages and reports untouched, and row-for-row changes only the
target job's `status` (to `cancelled`) and `updated_at`; every other
field of every job row is preserved. -/
theorem cancel_frame (db : DB) (jid now uid : Nat) (em un : String) :
    (adminCancel (some ⟨uid, em, un, "admin"⟩) db jid now).1
      = Resp.redirect "/admin/jobs"
    ∧ (adminCancel (some ⟨uid, em, un, "admin"⟩) db jid now).2.users = db.users
    ∧ (adminCancel (some ⟨uid, em, un, "admin"⟩) db jid now).2.messages = db.messages
    ∧ (adminCancel (some ⟨uid, em, un, "admin"⟩) db jid now).2.reports = db.reports
    ∧ List.Forall₂ (fun j j' : Job =>
        j'.id = j.id ∧ j'.user_id = j.user_id
        ∧ j'.original_filename = j.original_filename
        ∧ j'.stored_filename = j.stored_filename
        ∧ j'.options = j.options ∧ j'.notes = j.notes
        ∧ j'.processed_filename = j.processed_filename
        ∧ j'.vehicle_make = j.vehicle_make ∧ j'.vehicle_model = j.vehicle_model
        ∧ j'.vehicle_year = j.vehicle_year ∧ j'.ecu_controller = j.ecu_controller
        ∧ j'.client_message = j.client_message ∧ j'.created_at = j.created_at
        ∧ (j.id = jid → j'.status = "cancelled" ∧ j'.updated_at = now)
        ∧ (j.id ≠ jid → j'.status = j.status ∧ j'.updated_at = j.updated_at))
      db.jobs (adminCancel (some ⟨uid, em, un, "admin"⟩) db jid now).2.jobs := by
  refine ⟨rfl, rfl, rfl, rfl, ?_⟩
  show List.Forall₂ _ db.jobs (db.jobs.map (cancelRow jid now))
  rw [List.forall₂_map_right_iff, List.forall₂_same]
  intro x hx
  unfold cancelRow
  by_cases hid : x.id = jid
  · simp [hid]
  · simp [hid]

/-- A joined row strips back to the message it came from. -/
theorem stripView_joinUser (db : DB) (m : Message) (v : MessageView)
    (h : joinUser db m = some v) : stripView v = m := by
  unfold joinUser at h
  rcases hf : db.users.find? (fun usr => usr.id == m.user_id) with _ | usr
  · rw [hf] at h
    simp at h
  · rw [hf] at h
    simp only [Option.map] at h
    injection h with h2
    rw [← h2]
    rfl

/-- When every author is present in the users table, the join drops no
message: stripping the joined rows gives back the original rows. -/
theorem filterMap_joinUser_strip (db : DB) (l : List Message)
    (h : ∀ m ∈ l, ∃ usr ∈ db.users, usr.id = m.user_id) :
    (l.filterMap (joinUser db)).map stripView = l := by
  induction l with
  | nil => rfl
  | cons m ms ih =>
    obtain ⟨usr, husr, heq⟩ := h m (List.mem_cons_self m ms)
    obtain ⟨v, hv⟩ : ∃ v, joinUser db m = some v := by
      have hfs : (db.users.find? (fun usr => usr.id == m.user_id)).isSome := by
        rw [List.find?_isSome]
        exact ⟨usr, husr, by simp [heq]⟩
      obtain ⟨usr', husr'⟩ := Option.isSome_iff_exists.mp hfs
      exact ⟨_, by unfold joinUser; rw [husr']; rfl⟩
    simp only [List.filterMap_cons, hv, List.map_cons]
    rw [stripView_joinUser db m v hv]
    rw [ih (fun m' hm' => h m' (List.mem_cons_of_mem _ hm'))]

/-- C9. Listing a job's thread returns the job's messages in
non-decreasing creation-time order (a permutation of exactly the job's
rows, given that each author exists), and the authorization is symmetric
with posting: the two endpoints run the same job lookup, which succeeds
exactly for the operator role or the job's owner; unauthenticated callers
are redirected away from both. -/
theorem messages_ordered_and_auth_symmetric (db : DB) (u : User) (jid : Nat)
    (body : String) (now : Nat)
    (htrim : jsTrim body ≠ "")
    (hauthors : ∀ m ∈ db.messages, ∃ usr ∈ db.users, usr.id = m.user_id) :
    (listMessages (some u) db jid = Resp.err 403 "Forbidden"
      ↔ (postMessage (some u) db jid body now).1 = Resp.err 403 "Forbidden")
    ∧ ((jobQuery u db jid).isSome
      ↔ ∃ j ∈ db.jobs, j.id = jid ∧ (u.role = "admin" ∨ j.user_id = u.id))
    ∧ (∀ msgs, listMessages (some u) db jid = Resp.ok msgs →
        List.Sorted msgViewLE msgs
        ∧ (msgs.map stripView).Perm
            (db.messages.filter (fun m => m.job_id == jid)))
    ∧ listMessages none db jid = Resp.redirect "/login"
    ∧ (postMessage none db jid body now).1 = Resp.redirect "/login" := by
  refine ⟨?_, ?_, ?_, rfl, rfl⟩
  · rcases hq : jobQuery u db jid with _ | j
    · have hl : listMessages (some u) db jid = Resp.err 403 "Forbidden" := by
        unfold listMessages
        dsimp only
        simp only [hq]
      have hp : (postMessage (some u) db jid body now).1
          = Resp.err 403 "Forbidden" := by
        unfold postMessage
        dsimp only
        rw [if_neg htrim]
        simp only [hq]
      exact iff_of_true hl hp
    · have hl : listMessages (some u) db jid
          = Resp.ok (List.insertionSort msgViewLE
            ((db.messages.filter (fun m => m.job_id == jid)).filterMap
              (joinUser db))) := by
        unfold listMessages
        dsimp only
        simp only [hq]
      have hp : (postMessage (some u) db jid body now).1
          ≠ Resp.err 403 "Forbidden" := by
        unfold postMessage
        dsimp only
        rw [if_neg htrim]
        simp only [hq]
        split
        · intro hc
          simp at hc
        · intro hc
          simp at hc
      rw [hl]
      exact iff_of_false (by simp) hp
  · unfold jobQuery
    by_cases hr : u.role = "admin"
    · rw [if_pos (by simp [hr])]
      rw [List.find?_isSome]
      constructor
      · rintro ⟨x, hx, hpx⟩
        simp only [beq_iff_eq] at hpx
        exact ⟨x, hx, hpx, Or.inl hr⟩
      · rintro ⟨x, hx, hxid, -⟩
        exact ⟨x, hx, by simp [hxid]⟩
    · rw [if_neg (by simp [hr])]
      rw [List.find?_isSome]
      constructor
      · rintro ⟨x, hx, hpx⟩
        simp only [Bool.and_eq_true, beq_iff_eq] at hpx
        exact ⟨x, hx, by tauto, Or.inr (by tauto)⟩
      · rintro ⟨x, hx, hxid, hor⟩
        rcases hor with h' | h'
        · exact absurd h' hr
        · exact ⟨x, hx, by simp [hxid, h']⟩
  · intro msgs hmsgs
    rcases hq : jobQuery u db jid with _ | j
    · unfold listMessages at hmsgs
      dsimp only at hmsgs
      rw [hq] at hmsgs
      simp at hmsgs
    · unfold listMessages at hmsgs
      dsimp only at hmsgs
      simp only [hq, Resp.ok.injEq] at hmsgs
      subst hmsgs
      constructor
      · exact List.sorted_insertionSort _ _
      · have hperm := (List.perm_insertionSort msgViewLE
          ((db.messages.filter (fun m => m.job_id == jid)).filterMap
            (joinUser db))).map stripView
        rw [filterMap_joinUser_strip db _
          (fun m hm => hauthors m (List.mem_of_mem_filter hm))] at hperm
        exact hperm

/-- Two messages on job 1, inserted out of creation order. -/
def msg1 : Message := ⟨1, 1, 2, "hello", 50⟩

/-- The admin's earlier reply on job 1. -/
def msg2 : Message := ⟨2, 1, 1, "hi", 45⟩

/-- A database with a populated, unordered message thread. -/
def dbMsgs : DB :=
  ⟨[adminUser, clientUser], [jobCompleted, jobPending], [msg1, msg2], [], 8, 3, 1⟩

/-- Witness for C9 on `dbMsgs` and the client. -/
theorem messages_ordered_and_auth_symmetric_witness :
    jsTrim "yo" ≠ ""
    ∧ (∀ m ∈ dbMsgs.messages, ∃ usr ∈ dbMsgs.users, usr.id = m.user_id)
    ∧ ((listMessages (some clientUser) dbMsgs 1 = Resp.err 403 "Forbidden"
        ↔ (postMessage (some clientUser) dbMsgs 1 "yo" 60).1
            = Resp.err 403 "Forbidden")
      ∧ ((jobQuery clientUser dbMsgs 1).isSome
        ↔ ∃ j ∈ dbMsgs.jobs, j.id = 1
            ∧ (clientUser.role = "admin" ∨ j.user_id = clientUser.id))
      ∧ (∀ msgs, listMessages (some clientUser) dbMsgs 1 = Resp.ok msgs →
          List.Sorted msgViewLE msgs
          ∧ (msgs.map stripView).Perm
              (dbMsgs.messages.filter (fun m => m.job_id == 1)))
      ∧ listMessages none dbMsgs 1 = Resp.redirect "/login"
      ∧ (postMessage none dbMsgs 1 "yo" 60).1 = Resp.redirect "/login") :=
  ⟨by decide, by decide,
    messages_ordered_and_auth_symmetric dbMsgs clientUser 1 "yo" 60
      (by decide) (by decide)⟩
